import Mathlib

/-!
Shallow embedding of `src/tma/tma_copy.h` (a TMA tile-copy demo): the device
kernel `copyTMAKernel` and the host driver
`copy_host_tma_load_and_store_kernel`, together with proofs of the spec
claims about them.

Modelling conventions:
* Machine integers are modelled by `Nat` (all quantities involved are
  non-negative and far from overflow in every claim considered).
* The element type is `float`; element values are modelled abstractly as
  `Nat` (the claims are about data movement and control flow, not about
  floating-point arithmetic).
* Global 2-D buffers are total functions `Nat → Nat → Nat` from (row, col)
  to the stored value; the row-major (`LayoutRight`) linearisation
  `(r, c) ↦ r * N + c` is used where the host code works with flat indices.
* The hardware TMA bulk-copy instructions (`SM90_TMA_LOAD` / `SM90_TMA_STORE`
  issued through `cute::copy`) are embedded by their documented effect:
  a bounds-predicated tile transfer (out-of-bounds loads deliver zero to
  shared memory, out-of-bounds stores are suppressed).
* The CUDA runtime calls of the host loop are modelled by an oracle
  `sync : Nat → Option String` giving the result of `cudaDeviceSynchronize`
  for each iteration (`none` = `cudaSuccess`, `some msg` = a fault whose
  `cudaGetErrorString` text is `msg`).
-/

namespace TmaCopy

/-- Embedding of cutlass `ceil_div(a, b) = (a + b - 1) / b` on `Nat`
(`dim3 gridDim(ceil_div(M, TILE_M), ceil_div(N, TILE_N))` in the host code). -/
def ceil_div (a b : Nat) : Nat := (a + b - 1) / b

/-- Embedding of `sizeof(Element)` for `using Element = float`. -/
def elemBytes : Nat := 4

/-- Embedding of `size(SmemLayout{})` for
`smemLayout = make_layout(make_shape(Int<TILE_M>, Int<TILE_N>), LayoutRight)`:
the number of elements of one staging tile. -/
def smemLayoutSize (tm tn : Nat) : Nat := tm * tn

/-- Round a byte count up to the next multiple of 16 (the default alignment
of cute shared-memory storage). -/
def roundUp16 (x : Nat) : Nat := 16 * ((x + 15) / 16)

/-- Embedding of `sizeof(cute::ArrayEngine<Element, n>)`: the engine wraps a
`cute::array_aligned<Element, n>` whose storage is 16-byte aligned, so its
byte size is `4 * n` rounded up to a multiple of 16. -/
def sizeofArrayEngine (n : Nat) : Nat := roundUp16 (elemBytes * n)

/-- Embedding of `kTmaTransactionBytes = sizeof(ArrayEngine<Element,
size(SmemLayout{})>)` (line 93 of `tma_copy.h`). -/
def kTmaTransactionBytes (tm tn : Nat) : Nat :=
  sizeofArrayEngine (smemLayoutSize tm tn)

/-- Modelled from the spec: `shared_storage.h` (the definition of
`SharedStorageTMA<Element, SmemLayout>`) is not under `src/`; the spec
describes the staging buffer as scratch "sized exactly to hold one tile
(`rows*cols*elementSize` bytes), plus one barrier instance", i.e. a fixed
barrier overhead. The kernel's `static_assert` pins the barrier value type to
`uint64_t`, so the fixed overhead is modelled as 8 bytes. -/
def barrierOverheadBytes : Nat := 8

/-- Modelled from the spec: byte size of `SharedStorageTMA<Element,
SmemLayout>`, the struct bundling the staging `ArrayEngine` and the
transaction barrier = staging storage size plus the fixed barrier
overhead. -/
def sizeofSharedStorageTMA (tm tn : Nat) : Nat :=
  sizeofArrayEngine (smemLayoutSize tm tn) + barrierOverheadBytes

/-- Embedding of `smem_size = int(sizeof(SharedStorageTMA<Element,
decltype(smemLayout)>))` (line 208 of `tma_copy.h`). -/
def smem_size (tm tn : Nat) : Nat := sizeofSharedStorageTMA tm tn

/-! ### Kernel event trace

The body of `copyTMAKernel` is straight-line code at the granularity of one
execution unit (one block): the `if (warp_idx == 0 && lane_predicate)` guards
select which thread performs an action, not whether it happens.  Per block,
exactly one descriptor prefetch, one `mbarrier.init(1)`, one
`mbarrier.arrive_and_expect_tx(kTmaTransactionBytes)`, one TMA load issue,
one `__syncthreads()`, one `mbarrier.wait(0)` (which returns only once the
barrier is satisfied), one `fence_view_async_shared()` and one TMA store
issue occur, in source order. -/

/-- Events of one execution unit's run of `copyTMAKernel`. -/
inductive KEvent where
  | descPrefetch (arriveCount : Nat) : KEvent
  | barrierInit (arriveCount : Nat) : KEvent
  | barrierArm (expectTxBytes : Nat) : KEvent
  | loadIssued : KEvent
  | syncThreads : KEvent
  | barrierSatisfied (phase : Nat) : KEvent
  | fenceIssued : KEvent
  | storeIssued : KEvent
deriving DecidableEq

/-- Event trace of one block's execution of `copyTMAKernel` (lines 100-152 of
`tma_copy.h`), in source order; `txBytes` is the `kTmaTransactionBytes` value
the barrier is armed with. The commented-out `tma_store_arrive()` /
`tma_store_wait<0>()` of lines 149 and 151 contribute no events. -/
def copyTMAKernelTrace (txBytes : Nat) : List KEvent :=
  [KEvent.descPrefetch 0, KEvent.barrierInit 1, KEvent.barrierArm txBytes,
   KEvent.loadIssued, KEvent.syncThreads, KEvent.barrierSatisfied 0,
   KEvent.fenceIssued, KEvent.storeIssued]

/-- Recogniser for the barrier-arm event. -/
def isArmEvent : KEvent → Bool
  | KEvent.barrierArm _ => true
  | _ => false

/-- Recogniser for the load-issue event. -/
def isLoadEvent : KEvent → Bool
  | KEvent.loadIssued => true
  | _ => false

/-- Recogniser for the barrier-satisfied (wait-returned) event. -/
def isWaitEvent : KEvent → Bool
  | KEvent.barrierSatisfied _ => true
  | _ => false

/-- Recogniser for the fence event. -/
def isFenceEvent : KEvent → Bool
  | KEvent.fenceIssued => true
  | _ => false

/-- Recogniser for the store-issue event. -/
def isStoreEvent : KEvent → Bool
  | KEvent.storeIssued => true
  | _ => false

/-! ### Kernel data effect

`copyTMAKernel` stages the tile at `blkCoord = (blockIdx.x, blockIdx.y)`
through shared memory: the TMA load brings the tile sub-region of the source
tensor into `sS` (out-of-bounds positions of a boundary tile are
zero-filled), and after the barrier wait and fence the TMA store writes the
staged tile back to the same tile sub-region of the destination tensor
(out-of-bounds positions are not written). -/

/-- Predicate for (i, j) lying inside the tile of block `blk`: the TMA store
of block `blk` writes exactly these destination coordinates.  `R C` is the
global shape, `tr tc` the tile shape. -/
def inTile (R C tr tc : Nat) (blk : Nat × Nat) (i j : Nat) : Prop :=
  blk.1 * tr ≤ i ∧ i < blk.1 * tr + tr ∧ i < R ∧
  blk.2 * tc ≤ j ∧ j < blk.2 * tc + tc ∧ j < C

instance inTileDec (R C tr tc : Nat) (blk : Nat × Nat) (i j : Nat) :
    Decidable (inTile R C tr tc blk i j) := by
  unfold inTile
  exact inferInstance

/-- Effect of the TMA load (`copy(tmaLoad.with(mbarrier), ...)`, line 122):
the shared-memory staging tile as a function of tile-local coordinates;
out-of-bounds positions of a boundary tile are zero-filled by the hardware. -/
def tmaLoadTile (R C tr tc : Nat) (S : Nat → Nat → Nat) (blk : Nat × Nat) :
    Nat → Nat → Nat :=
  fun a b =>
    if blk.1 * tr + a < R ∧ blk.2 * tc + b < C then
      S (blk.1 * tr + a) (blk.2 * tc + b)
    else 0

/-- Effect of the TMA store (`cute::copy(tmaStore, ...)`, line 147): write the
staged tile to the destination at block `blk`'s tile sub-region, suppressing
out-of-bounds writes. -/
def tmaStoreTile (R C tr tc : Nat) (blk : Nat × Nat)
    (smem : Nat → Nat → Nat) (D : Nat → Nat → Nat) : Nat → Nat → Nat :=
  fun i j =>
    if inTile R C tr tc blk i j then smem (i - blk.1 * tr) (j - blk.2 * tc)
    else D i j

/-- Data effect of one block's run of `copyTMAKernel`: destination after the
load-stage-store round trip of block `blk`. -/
def copyTMAKernel (R C tr tc : Nat) (S : Nat → Nat → Nat) (blk : Nat × Nat)
    (D : Nat → Nat → Nat) : Nat → Nat → Nat :=
  tmaStoreTile R C tr tc blk (tmaLoadTile R C tr tc S blk) D

/-! ### Grid launch and host driver -/

/-- Grid dimensions computed by the host:
`dim3 gridDim(ceil_div(M, TILE_M), ceil_div(N, TILE_N))` (line 205). -/
def gridDim (M N tm tn : Nat) : Nat × Nat :=
  (ceil_div M tm, ceil_div N tn)

/-- Tile coordinate of one execution unit:
`auto blkCoord = make_coord(blockIdx.x, blockIdx.y)` (line 107). -/
def blkCoord (bx bj : Nat) : Nat × Nat := (bx, bj)

/-- All block indices of the launch grid. -/
def blockIdxList (M N tm tn : Nat) : List (Nat × Nat) :=
  (List.range (gridDim M N tm tn).1).product (List.range (gridDim M N tm tn).2)

/-- Effect of one grid launch of `copyTMAKernel`: every block of the grid
applies its (pairwise disjoint) tile copy to the destination. -/
def launchGrid (M N tm tn : Nat) (S D : Nat → Nat → Nat) : Nat → Nat → Nat :=
  (blockIdxList M N tm tn).foldl
    (fun acc blk => copyTMAKernel M N tm tn S blk acc) D

/-- Result of the host iteration loop (lines 222-238): final device
destination buffer, the fault reported by the first failing
`cudaDeviceSynchronize` (if any), and the number of launches performed. -/
structure IterResult where
  devD : Nat → Nat → Nat
  fault : Option String
  launches : Nat

/-- Embedding of the host loop `for (int i = 0; i < iterations; i++)`:
each iteration launches the grid, then synchronizes; a failing
synchronization returns immediately (the launch status itself is ignored by
the source). -/
def runIterations (M N tm tn : Nat) (S : Nat → Nat → Nat)
    (sync : Nat → Option String) : Nat → Nat → (Nat → Nat → Nat) → IterResult
  | 0, _, D => ⟨D, none, 0⟩
  | k + 1, i0, D =>
    match sync i0 with
    | some msg => ⟨launchGrid M N tm tn S D, some msg, 1⟩
    | none =>
      let r := runIterations M N tm tn S sync k (i0 + 1)
        (launchGrid M N tm tn S D)
      ⟨r.devD, r.fault, r.launches + 1⟩

/-- Source initialisation `h_S[i] = static_cast<Element>(float(i))` seen
through the row-major layout: the element at (r, c) has value `r * N + c`. -/
def srcInit (N : Nat) : Nat → Nat → Nat := fun i j => i * N + j

/-- Result of the host entry point: the returned status code, the diagnostic
written to stderr (if any), the number of launches performed, the final
device destination buffer, and the good/bad counters of the verification
pass (0 when the verification pass is not reached). -/
structure HostResult where
  status : Int
  diag : Option String
  launches : Nat
  finalD : Nat → Nat → Nat
  good : Nat
  bad : Nat

/-- Verification-pass good counter (lines 246-253): number of flat indices
`o < M * N` at which destination and source agree. -/
def goodCount (M N : Nat) (Df : Nat → Nat → Nat) : Nat :=
  (List.range (M * N)).countP
    (fun o => decide (Df (o / N) (o % N) = srcInit N (o / N) (o % N)))

/-- Embedding of the host entry point
`copy_host_tma_load_and_store_kernel<TILE_M, TILE_N, THREADS>(M, N,
iterations)` (lines 157-258): allocate source (`h_S[i] = float(i)`) and
destination (value-initialised to 0) buffers, run the iteration loop, and
either return -1 with a `CUDA Runtime error` diagnostic on a failed
synchronization, or count matches/mismatches and return 0.  `tm tn` are the
`TILE_M`/`TILE_N` template arguments; the thread count does not affect the
per-block data effect and is not modelled. -/
def copy_host_tma_load_and_store_kernel (tm tn M N iterations : Nat)
    (sync : Nat → Option String) : HostResult :=
  match runIterations M N tm tn (srcInit N) sync iterations 0
      (fun _ _ => 0) with
  | ⟨Df, some msg, n⟩ =>
    ⟨-1, some ("CUDA Runtime error: " ++ msg), n, Df, 0, 0⟩
  | ⟨Df, none, n⟩ =>
    ⟨0, none, n, Df, goodCount M N Df, M * N - goodCount M N Df⟩

/-- Oracle for a device on which every `cudaDeviceSynchronize` succeeds. -/
def syncOK : Nat → Option String := fun _ => none

/-- Oracle for a device whose first synchronization succeeds and which
faults at every later synchronization point. -/
def syncFaultLater : Nat → Option String :=
  fun t => if t = 0 then none else some "misaligned address"

/-! ### Destination byte ranges -/

/-- Set of destination byte offsets written by the execution unit at tile
coordinate `blk`: the bytes of every element of its tile sub-region, under
the row-major layout (`LayoutRight`) of the destination tensor. -/
def destByteOffsets (R C tr tc : Nat) (blk : Nat × Nat) : Set Nat :=
  { o | ∃ i j, inTile R C tr tc blk i j ∧
        elemBytes * (i * C + j) ≤ o ∧ o < elemBytes * (i * C + j) + elemBytes }

/-! ### Helper lemmas: the kernel data effect -/

/-- Inside its own tile sub-region the kernel writes the source value: the
load stages `S` and the store writes the staged value back. -/
lemma copyTMAKernel_inTile (R C tr tc : Nat) (S D : Nat → Nat → Nat)
    (blk : Nat × Nat) (i j : Nat) (h : inTile R C tr tc blk i j) :
    copyTMAKernel R C tr tc S blk D i j = S i j := by
  obtain ⟨h1, h2, h3, h4, h5, h6⟩ := h
  unfold copyTMAKernel tmaStoreTile tmaLoadTile
  rw [if_pos ⟨h1, h2, h3, h4, h5, h6⟩]
  have hi : blk.1 * tr + (i - blk.1 * tr) = i := by omega
  have hj : blk.2 * tc + (j - blk.2 * tc) = j := by omega
  rw [hi, hj, if_pos ⟨h3, h6⟩]

/-- Outside its own tile sub-region the kernel leaves the destination
untouched (the TMA store is bounds-predicated). -/
lemma copyTMAKernel_notInTile (R C tr tc : Nat) (S D : Nat → Nat → Nat)
    (blk : Nat × Nat) (i j : Nat) (h : ¬ inTile R C tr tc blk i j) :
    copyTMAKernel R C tr tc S blk D i j = D i j := by
  unfold copyTMAKernel tmaStoreTile
  rw [if_neg h]

/-- One kernel step can only keep the old value or write the source value. -/
lemma copyTMAKernel_cases (R C tr tc : Nat) (S D : Nat → Nat → Nat)
    (blk : Nat × Nat) (i j : Nat) :
    copyTMAKernel R C tr tc S blk D i j = S i j ∨
    copyTMAKernel R C tr tc S blk D i j = D i j := by
  by_cases h : inTile R C tr tc blk i j
  · exact Or.inl (copyTMAKernel_inTile R C tr tc S D blk i j h)
  · exact Or.inr (copyTMAKernel_notInTile R C tr tc S D blk i j h)

/-! ### Helper lemmas: folding the kernel over a block list -/

/-- Once a position holds the source value, further kernel steps keep it. -/
lemma foldl_stable (M N tm tn : Nat) (S : Nat → Nat → Nat) (i j : Nat) :
    ∀ (L : List (Nat × Nat)) (D : Nat → Nat → Nat), D i j = S i j →
      (L.foldl (fun acc blk => copyTMAKernel M N tm tn S blk acc) D) i j
        = S i j := by
  intro L
  induction L with
  | nil => intro D h; exact h
  | cons b L ih =>
    intro D h
    simp only [List.foldl_cons]
    apply ih
    rcases copyTMAKernel_cases M N tm tn S D b i j with hc | hc
    · exact hc
    · rw [hc]; exact h

/-- A position not covered by any block of the list keeps its old value. -/
lemma foldl_untouched (M N tm tn : Nat) (S : Nat → Nat → Nat) (i j : Nat) :
    ∀ (L : List (Nat × Nat)) (D : Nat → Nat → Nat),
      (∀ blk ∈ L, ¬ inTile M N tm tn blk i j) →
      (L.foldl (fun acc blk => copyTMAKernel M N tm tn S blk acc) D) i j
        = D i j := by
  intro L
  induction L with
  | nil => intro D _; rfl
  | cons b L ih =>
    intro D h
    simp only [List.foldl_cons]
    rw [ih _ (fun blk hm => h blk (List.mem_cons_of_mem b hm))]
    exact copyTMAKernel_notInTile M N tm tn S D b i j
      (h b (List.mem_cons_self b L))

/-- A position covered by some block of the list ends up with the source
value. -/
lemma foldl_covered (M N tm tn : Nat) (S : Nat → Nat → Nat) (i j : Nat) :
    ∀ (L : List (Nat × Nat)) (D : Nat → Nat → Nat),
      (∃ blk ∈ L, inTile M N tm tn blk i j) →
      (L.foldl (fun acc blk => copyTMAKernel M N tm tn S blk acc) D) i j
        = S i j := by
  intro L
  induction L with
  | nil => intro D h; exact absurd h (by simp)
  | cons b L ih =>
    intro D h
    simp only [List.foldl_cons]
    by_cases hb : inTile M N tm tn b i j
    · exact foldl_stable M N tm tn S i j L _
        (copyTMAKernel_inTile M N tm tn S D b i j hb)
    · rcases h with ⟨blk, hm, ht⟩
      rcases List.mem_cons.mp hm with rfl | hm
      · exact absurd ht hb
      · exact ih _ ⟨blk, hm, ht⟩

/-! ### Helper lemmas: coverage of the grid -/

/-- Index arithmetic: an in-bounds row index lies in the row-tile
`i / tm` of the grid. -/
lemma div_lt_ceil_div (i M tm : Nat) (htm : 1 ≤ tm) (h : i < M) :
    i / tm < ceil_div M tm := by
  unfold ceil_div
  have hM : M + tm - 1 = (M - 1) + tm := by omega
  rw [hM, Nat.add_div_right _ htm]
  exact Nat.lt_succ_of_le (Nat.div_le_div_right (by omega))

/-- Rounding up to a multiple of 16 is the identity on multiples of 16. -/
lemma roundUp16_eq_self (x : Nat) (h : x % 16 = 0) : roundUp16 x = x := by
  obtain ⟨k, rfl⟩ := Nat.dvd_of_mod_eq_zero h
  unfold roundUp16
  rw [Nat.mul_add_div (by omega) k 15, Nat.div_eq_of_lt (by omega),
      Nat.add_zero]

/-- Div/mod sandwich: `i` lies inside the tile of block row `i / tm`. -/
lemma lt_div_mul_add (i tm : Nat) (htm : 1 ≤ tm) : i < i / tm * tm + tm := by
  have h1 := Nat.div_add_mod i tm
  have h2 := Nat.mod_lt i htm
  have h3 : tm * (i / tm) = i / tm * tm := Nat.mul_comm _ _
  omega

/-- Every in-bounds position is covered by exactly the block
`(i / tm, j / tn)` of the launch grid. -/
lemma coverage (M N tm tn i j : Nat) (htm : 1 ≤ tm) (htn : 1 ≤ tn)
    (hi : i < M) (hj : j < N) :
    (i / tm, j / tn) ∈ blockIdxList M N tm tn ∧
    inTile M N tm tn (i / tm, j / tn) i j := by
  constructor
  · unfold blockIdxList
    exact List.mem_product.mpr
      ⟨List.mem_range.mpr (div_lt_ceil_div i M tm htm hi),
       List.mem_range.mpr (div_lt_ceil_div j N tn htn hj)⟩
  · exact ⟨Nat.div_mul_le_self i tm, lt_div_mul_add i tm htm, hi,
           Nat.div_mul_le_self j tn, lt_div_mul_add j tn htn, hj⟩

/-- A block covers a position only if it is that position's div-block:
tile sub-regions of distinct blocks are disjoint. -/
lemma inTile_unique (R C tr tc : Nat) (blk : Nat × Nat) (i j : Nat)
    (h : inTile R C tr tc blk i j) :
    blk = (i / tr, j / tc) := by
  obtain ⟨h1, h2, _, h4, h5, _⟩ := h
  have hx : i / tr = blk.1 := by
    refine Nat.div_eq_of_lt_le h1 ?_
    rw [Nat.succ_mul]
    exact h2
  have hy : j / tc = blk.2 := by
    refine Nat.div_eq_of_lt_le h4 ?_
    rw [Nat.succ_mul]
    exact h5
  rw [hx, hy]

/-! ### Helper lemmas: one grid launch -/

/-- Main correctness of one launch: every in-bounds destination element holds
the corresponding source element afterwards. -/
lemma launchGrid_correct (M N tm tn : Nat) (S D : Nat → Nat → Nat)
    (htm : 1 ≤ tm) (htn : 1 ≤ tn) (i j : Nat) (hi : i < M) (hj : j < N) :
    launchGrid M N tm tn S D i j = S i j := by
  obtain ⟨hmem, hcov⟩ := coverage M N tm tn i j htm htn hi hj
  exact foldl_covered M N tm tn S i j _ D ⟨_, hmem, hcov⟩

/-- Out-of-bounds destination elements are never written by a launch. -/
lemma launchGrid_oob (M N tm tn : Nat) (S D : Nat → Nat → Nat)
    (i j : Nat) (h : M ≤ i ∨ N ≤ j) :
    launchGrid M N tm tn S D i j = D i j := by
  apply foldl_untouched
  intro blk _ ht
  obtain ⟨_, _, h3, _, _, h6⟩ := ht
  omega

/-- Launching the grid twice with the same source is the same as launching it
once: each iteration re-derives every written value from the source alone. -/
lemma launchGrid_idem (M N tm tn : Nat) (S D : Nat → Nat → Nat)
    (htm : 1 ≤ tm) (htn : 1 ≤ tn) :
    launchGrid M N tm tn S (launchGrid M N tm tn S D)
      = launchGrid M N tm tn S D := by
  funext i j
  by_cases hi : i < M
  · by_cases hj : j < N
    · rw [launchGrid_correct M N tm tn S _ htm htn i j hi hj,
          launchGrid_correct M N tm tn S D htm htn i j hi hj]
    · rw [launchGrid_oob M N tm tn S _ i j (Or.inr (by omega))]
  · rw [launchGrid_oob M N tm tn S _ i j (Or.inl (by omega))]

/-! ### Helper lemmas: the host iteration loop -/

/-- After at least one iteration, every in-bounds destination element holds
the source value, whether or not a later synchronization faulted. -/
lemma runIterations_devD_inbounds (M N tm tn : Nat) (S : Nat → Nat → Nat)
    (sync : Nat → Option String) (htm : 1 ≤ tm) (htn : 1 ≤ tn) :
    ∀ (k : Nat), 1 ≤ k → ∀ (i0 : Nat) (D : Nat → Nat → Nat) (i j : Nat),
      i < M → j < N →
      (runIterations M N tm tn S sync k i0 D).devD i j = S i j := by
  intro k
  induction k with
  | zero => intro h; exact absurd h (by omega)
  | succ k ih =>
    intro _ i0 D i j hi hj
    simp only [runIterations]
    cases hs : sync i0 with
    | some msg =>
      simp only
      exact launchGrid_correct M N tm tn S D htm htn i j hi hj
    | none =>
      simp only
      cases hk : k with
      | zero =>
        simp only [runIterations]
        exact launchGrid_correct M N tm tn S D htm htn i j hi hj
      | succ m =>
        rw [hk] at ih
        exact ih (by omega) (i0 + 1) _ i j hi hj

/-- With an all-success synchronization oracle the loop runs all its
iterations, reports no fault, and ends with the single-launch destination. -/
lemma runIterations_ok (M N tm tn : Nat) (S : Nat → Nat → Nat)
    (sync : Nat → Option String) :
    ∀ (k i0 : Nat) (D : Nat → Nat → Nat),
      (∀ t, i0 ≤ t → t < i0 + k → sync t = none) →
      (runIterations M N tm tn S sync k i0 D).fault = none ∧
      (runIterations M N tm tn S sync k i0 D).launches = k := by
  intro k
  induction k with
  | zero => intro i0 D _; exact ⟨rfl, rfl⟩
  | succ k ih =>
    intro i0 D h
    have h0 : sync i0 = none := h i0 (Nat.le_refl i0) (by omega)
    simp only [runIterations, h0]
    have := ih (i0 + 1) (launchGrid M N tm tn S D)
      (fun t ht1 ht2 => h t (by omega) (by omega))
    exact ⟨this.1, by rw [this.2]⟩

/-- A run whose first synchronization fault occurs at loop offset `f`
(every earlier synchronization having succeeded) reports that fault. -/
lemma runIterations_fault_at (M N tm tn : Nat) (S : Nat → Nat → Nat)
    (sync : Nat → Option String) (msg : String) :
    ∀ (f k i0 : Nat) (D : Nat → Nat → Nat), f < k →
      (∀ t, i0 ≤ t → t < i0 + f → sync t = none) →
      sync (i0 + f) = some msg →
      (runIterations M N tm tn S sync k i0 D).fault = some msg := by
  intro f
  induction f with
  | zero =>
    intro k i0 D hf hpre hf0
    cases k with
    | zero => exact absurd hf (by omega)
    | succ k =>
      rw [Nat.add_zero] at hf0
      simp only [runIterations, hf0]
  | succ f ih =>
    intro k i0 D hf hpre hfs
    cases k with
    | zero => exact absurd hf (by omega)
    | succ k =>
      have h0 : sync i0 = none := hpre i0 (Nat.le_refl i0) (by omega)
      simp only [runIterations, h0]
      exact ih k (i0 + 1) _ (by omega)
        (fun t ht1 ht2 => hpre t (by omega) (by omega))
        (by rw [show i0 + 1 + f = i0 + (f + 1) by omega]; exact hfs)

/-- With an all-success oracle, at least one iteration, and positive tile
dimensions, the loop's final destination equals the single-launch one. -/
lemma runIterations_idem (M N tm tn : Nat) (S : Nat → Nat → Nat)
    (htm : 1 ≤ tm) (htn : 1 ≤ tn) :
    ∀ (k : Nat), 1 ≤ k → ∀ (i0 : Nat) (D : Nat → Nat → Nat),
      (runIterations M N tm tn S syncOK k i0 D).devD
        = launchGrid M N tm tn S D := by
  intro k
  induction k with
  | zero => intro h; exact absurd h (by omega)
  | succ k ih =>
    intro _ i0 D
    simp only [runIterations, syncOK]
    cases hk : k with
    | zero => simp only [runIterations]
    | succ m =>
      rw [hk] at ih
      rw [ih (by omega) (i0 + 1) (launchGrid M N tm tn S D)]
      exact launchGrid_idem M N tm tn S D htm htn

/-- Structure of the host result as a function of the loop result. -/
lemma host_eq (tm tn M N iterations : Nat) (sync : Nat → Option String) :
    copy_host_tma_load_and_store_kernel tm tn M N iterations sync
      = (match (runIterations M N tm tn (srcInit N) sync iterations 0
            (fun _ _ => 0)).fault with
         | some msg =>
           ⟨-1, some ("CUDA Runtime error: " ++ msg),
            (runIterations M N tm tn (srcInit N) sync iterations 0
              (fun _ _ => 0)).launches,
            (runIterations M N tm tn (srcInit N) sync iterations 0
              (fun _ _ => 0)).devD, 0, 0⟩
         | none =>
           ⟨0, none,
            (runIterations M N tm tn (srcInit N) sync iterations 0
              (fun _ _ => 0)).launches,
            (runIterations M N tm tn (srcInit N) sync iterations 0
              (fun _ _ => 0)).devD,
            goodCount M N ((runIterations M N tm tn (srcInit N) sync
              iterations 0 (fun _ _ => 0)).devD),
            M * N - goodCount M N ((runIterations M N tm tn (srcInit N) sync
              iterations 0 (fun _ _ => 0)).devD)⟩) := by
  unfold copy_host_tma_load_and_store_kernel
  rcases runIterations M N tm tn (srcInit N) sync iterations 0
      (fun _ _ => 0) with ⟨Df, f, n⟩
  cases f <;> rfl

/-- The final destination returned by the host is the loop's destination,
on every path. -/
lemma host_finalD (tm tn M N iterations : Nat) (sync : Nat → Option String) :
    (copy_host_tma_load_and_store_kernel tm tn M N iterations sync).finalD
      = (runIterations M N tm tn (srcInit N) sync iterations 0
          (fun _ _ => 0)).devD := by
  rw [host_eq]
  cases (runIterations M N tm tn (srcInit N) sync iterations 0
      (fun _ _ => 0)).fault <;> rfl

/-- When no synchronization faults, the host returns status 0 with no
diagnostic and reports the loop's launch count and verification counters. -/
lemma host_of_fault_none (tm tn M N iterations : Nat)
    (sync : Nat → Option String)
    (h : (runIterations M N tm tn (srcInit N) sync iterations 0
      (fun _ _ => 0)).fault = none) :
    (copy_host_tma_load_and_store_kernel tm tn M N iterations sync).status = 0
    ∧ (copy_host_tma_load_and_store_kernel tm tn M N iterations sync).diag
        = none
    ∧ (copy_host_tma_load_and_store_kernel tm tn M N iterations sync).launches
        = (runIterations M N tm tn (srcInit N) sync iterations 0
            (fun _ _ => 0)).launches
    ∧ (copy_host_tma_load_and_store_kernel tm tn M N iterations sync).bad
        = M * N - goodCount M N ((runIterations M N tm tn (srcInit N) sync
            iterations 0 (fun _ _ => 0)).devD) := by
  unfold copy_host_tma_load_and_store_kernel
  cases hE : runIterations M N tm tn (srcInit N) sync iterations 0
      (fun _ _ => 0) with
  | mk Df f n =>
    rw [hE] at h
    cases f with
    | some msg => exact absurd h (by simp)
    | none => exact ⟨rfl, rfl, rfl, rfl⟩

/-- When the first synchronization fault carries message `msg`, the host
returns status -1 and the diagnostic written to stderr. -/
lemma host_of_fault_some (tm tn M N iterations : Nat)
    (sync : Nat → Option String) (msg : String)
    (h : (runIterations M N tm tn (srcInit N) sync iterations 0
      (fun _ _ => 0)).fault = some msg) :
    (copy_host_tma_load_and_store_kernel tm tn M N iterations sync).status
      = -1
    ∧ (copy_host_tma_load_and_store_kernel tm tn M N iterations sync).diag
        = some ("CUDA Runtime error: " ++ msg) := by
  unfold copy_host_tma_load_and_store_kernel
  cases hE : runIterations M N tm tn (srcInit N) sync iterations 0
      (fun _ _ => 0) with
  | mk Df f n =>
    rw [hE] at h
    cases f with
    | some m =>
      have : m = msg := by
        have := h
        simp at this
        exact this
      rw [this]
      exact ⟨rfl, rfl⟩
    | none => exact absurd h (by simp)

/-! ### Claim theorems -/

/-- C1: for all global shapes (M, N) and tile shapes (tm, tn) with
tm, tn ≥ 1, after the host entry point `copy_host_tma_load_and_store_kernel`
completes with status 0 (having run at least the default single iteration),
every element of the destination buffer equals the corresponding element of
the source buffer (whose value at (i, j) is `i * N + j`), including boundary
tiles where `M mod tm ≠ 0` or `N mod tn ≠ 0`. -/
theorem roundtrip_identity (tm tn M N iterations : Nat)
    (sync : Nat → Option String) (htm : 1 ≤ tm) (htn : 1 ≤ tn)
    (hit : 1 ≤ iterations)
    (h0 : (copy_host_tma_load_and_store_kernel tm tn M N iterations
      sync).status = 0) :
    ∀ i j, i < M → j < N →
      (copy_host_tma_load_and_store_kernel tm tn M N iterations
        sync).finalD i j = srcInit N i j := by
  intro i j hi hj
  rw [host_finalD]
  exact runIterations_devD_inbounds M N tm tn (srcInit N) sync htm htn
    iterations hit 0 _ i j hi hj

/-- Witness for C1 at the boundary shape M = 3, N = 2 with 2-by-2 tiles
(the right/bottom tiles are partial). -/
theorem roundtrip_identity_witness :
    (copy_host_tma_load_and_store_kernel 2 2 3 2 1 syncOK).finalD 2 1
      = srcInit 2 2 1 :=
  roundtrip_identity 2 2 3 2 1 syncOK (by decide) (by decide) (by decide)
    (by decide) 2 1 (by decide) (by decide)

/-- C2 counterexample: in the kernel's event trace the barrier arm
(`mbarrier.arrive_and_expect_tx`, line 115) occurs at position 2, strictly
before the load issue (`copy(tmaLoad.with(...), ...)`, line 122) at
position 3, and each occurs exactly once — so the load issue does not
strictly precede the barrier arm as the claim orders them. -/
theorem load_precedes_arm_counterexample :
    ¬ ((copyTMAKernelTrace (kTmaTransactionBytes 128 128)).indexOf
          KEvent.loadIssued <
        (copyTMAKernelTrace (kTmaTransactionBytes 128 128)).indexOf
          (KEvent.barrierArm (kTmaTransactionBytes 128 128))) ∧
    (copyTMAKernelTrace (kTmaTransactionBytes 128 128)).indexOf
      (KEvent.barrierArm (kTmaTransactionBytes 128 128)) = 2 ∧
    (copyTMAKernelTrace (kTmaTransactionBytes 128 128)).indexOf
      KEvent.loadIssued = 3 ∧
    (copyTMAKernelTrace (kTmaTransactionBytes 128 128)).count
      (KEvent.barrierArm (kTmaTransactionBytes 128 128)) = 1 ∧
    (copyTMAKernelTrace (kTmaTransactionBytes 128 128)).count
      KEvent.loadIssued = 1 := by
  decide

/-- C2 amended: within one execution unit's invocation of `copyTMAKernel`
the events occur in this strict order: the load barrier is armed, then the
load is issued, then the barrier is satisfied (the wait returns), then the
memory fence is issued, and only then is the store issued; each of these
events occurs exactly once, on the single straight-line execution path. -/
theorem kernel_event_order (txBytes : Nat) :
    List.findIdx isArmEvent (copyTMAKernelTrace txBytes) <
      List.findIdx isLoadEvent (copyTMAKernelTrace txBytes) ∧
    List.findIdx isLoadEvent (copyTMAKernelTrace txBytes) <
      List.findIdx isWaitEvent (copyTMAKernelTrace txBytes) ∧
    List.findIdx isWaitEvent (copyTMAKernelTrace txBytes) <
      List.findIdx isFenceEvent (copyTMAKernelTrace txBytes) ∧
    List.findIdx isFenceEvent (copyTMAKernelTrace txBytes) <
      List.findIdx isStoreEvent (copyTMAKernelTrace txBytes) ∧
    (copyTMAKernelTrace txBytes).countP isArmEvent = 1 ∧
    (copyTMAKernelTrace txBytes).countP isLoadEvent = 1 ∧
    (copyTMAKernelTrace txBytes).countP isWaitEvent = 1 ∧
    (copyTMAKernelTrace txBytes).countP isFenceEvent = 1 ∧
    (copyTMAKernelTrace txBytes).countP isStoreEvent = 1 := by
  have ha : (2 : Nat) < 3 := by decide
  have hb : (3 : Nat) < 5 := by decide
  have hc : (5 : Nat) < 6 := by decide
  have hd : (6 : Nat) < 7 := by decide
  exact ⟨ha, hb, hc, hd, rfl, rfl, rfl, rfl, rfl⟩

/-- C3 counterexample: at a 1-by-1 tile the armed byte count is the 16-byte
aligned `sizeof(ArrayEngine<float, 1>) = 16`, not the staging tile byte size
`sizeof(float) * 1 * 1 = 4`: the claimed exact equality fails for tile
shapes whose byte size is not a multiple of the storage alignment. -/
theorem transaction_bytes_unaligned_counterexample :
    kTmaTransactionBytes 1 1 = 16 ∧
    elemBytes * 1 * 1 = 4 ∧
    kTmaTransactionBytes 1 1 ≠ elemBytes * 1 * 1 := by
  decide

/-- C3 amended: the byte count the barrier is armed with
(`kTmaTransactionBytes`, computed as `sizeof(ArrayEngine<Element,
size(SmemLayout{})>)`) equals the byte size of the staging tile,
`sizeof(float) * tm * tn`, rounded up to the array storage's 16-byte
alignment — hence exactly the tile byte size whenever that size is a
multiple of 16, in particular at the instantiated 128-by-128 tile — and the
shared scratch allocation requested at launch equals the staging storage
size plus the fixed barrier overhead; the kernel trace arms the barrier with
exactly this byte count. -/
theorem transaction_bytes_and_smem_size (tm tn : Nat) :
    kTmaTransactionBytes tm tn = roundUp16 (elemBytes * tm * tn) ∧
    (elemBytes * tm * tn % 16 = 0 →
      kTmaTransactionBytes tm tn = elemBytes * tm * tn) ∧
    smem_size tm tn = kTmaTransactionBytes tm tn + barrierOverheadBytes ∧
    KEvent.barrierArm (kTmaTransactionBytes tm tn) ∈
      copyTMAKernelTrace (kTmaTransactionBytes tm tn) := by
  have hassoc : elemBytes * (tm * tn) = elemBytes * tm * tn :=
    (Nat.mul_assoc _ _ _).symm
  refine ⟨?_, ?_, rfl, ?_⟩
  · unfold kTmaTransactionBytes sizeofArrayEngine smemLayoutSize
    rw [hassoc]
  · intro h
    unfold kTmaTransactionBytes sizeofArrayEngine smemLayoutSize
    rw [hassoc]
    exact roundUp16_eq_self _ h
  · simp [copyTMAKernelTrace]

/-- Witness for C3 at the instantiated 128-by-128 tile: 65536 bytes is a
multiple of 16, so the armed byte count exactly equals the tile byte size
and the scratch request is that size plus the barrier overhead. -/
theorem transaction_bytes_and_smem_size_witness :
    kTmaTransactionBytes 128 128 = elemBytes * 128 * 128 ∧
    smem_size 128 128 = elemBytes * 128 * 128 + barrierOverheadBytes :=
  ⟨(transaction_bytes_and_smem_size 128 128).2.1 (by decide), by decide⟩

/-- C4: for every global shape (M, N) and tile shape (tm, tn), the launch
grid has exactly `ceil(M/tm) * ceil(N/tn)` execution units, one per tile
(each grid position occurs in the block list exactly when it is inside the
grid, without duplicates), the tile coordinate of a unit is derived
one-to-one from its grid position, and `ceil_div` is the exact ceiling
division. -/
theorem grid_units_one_per_tile (M N tm tn : Nat)
    (htm : 1 ≤ tm) (htn : 1 ≤ tn) :
    (blockIdxList M N tm tn).length = ceil_div M tm * ceil_div N tn ∧
    (∀ bx bj, (bx, bj) ∈ blockIdxList M N tm tn ↔
        bx < ceil_div M tm ∧ bj < ceil_div N tn) ∧
    (blockIdxList M N tm tn).Nodup ∧
    Function.Injective (fun p : Nat × Nat => blkCoord p.1 p.2) ∧
    (M ≤ ceil_div M tm * tm ∧ ceil_div M tm * tm < M + tm) ∧
    (N ≤ ceil_div N tn * tn ∧ ceil_div N tn * tn < N + tn) := by
  refine ⟨?_, ?_, ?_, ?_, ?_, ?_⟩
  · show (List.range (ceil_div M tm) ×ˢ List.range (ceil_div N tn)).length = _
    rw [List.length_product, List.length_range, List.length_range]
  · intro bx bj
    show (bx, bj) ∈ List.range (ceil_div M tm) ×ˢ List.range (ceil_div N tn)
      ↔ _
    rw [List.mem_product, List.mem_range, List.mem_range]
  · exact List.Nodup.product (List.nodup_range _) (List.nodup_range _)
  · exact fun a b h => h
  · have h1 := Nat.div_add_mod (M + tm - 1) tm
    have h2 := Nat.mod_lt (M + tm - 1) htm
    have h3 : tm * ((M + tm - 1) / tm) = (M + tm - 1) / tm * tm :=
      Nat.mul_comm _ _
    unfold ceil_div
    omega
  · have h1 := Nat.div_add_mod (N + tn - 1) tn
    have h2 := Nat.mod_lt (N + tn - 1) htn
    have h3 : tn * ((N + tn - 1) / tn) = (N + tn - 1) / tn * tn :=
      Nat.mul_comm _ _
    unfold ceil_div
    omega

/-- Witness for C4 at the spec's concrete boundary scenario M = 300,
N = 200, 128-by-128 tiles: a 3-by-2 grid of 6 units. -/
theorem grid_units_one_per_tile_witness :
    (blockIdxList 300 200 128 128).length
      = ceil_div 300 128 * ceil_div 200 128 ∧
    gridDim 300 200 128 128 = (3, 2) ∧
    (blockIdxList 300 200 128 128).length = 6 :=
  ⟨(grid_units_one_per_tile 300 200 128 128 (by decide) (by decide)).1,
   by decide, by decide⟩

/-- C5: in every execution unit the outbound store is issued fire-and-forget:
the store-issue event is the last event of the kernel trace (control flow
proceeds directly to termination), the only barrier arm and the only barrier
wait of the trace both occur strictly before it, and no arm or wait follows
it. -/
theorem store_fire_and_forget (txBytes : Nat) :
    (copyTMAKernelTrace txBytes).getLast? = some KEvent.storeIssued ∧
    (copyTMAKernelTrace txBytes).countP isStoreEvent = 1 ∧
    (copyTMAKernelTrace txBytes).countP isArmEvent = 1 ∧
    List.findIdx isArmEvent (copyTMAKernelTrace txBytes) <
      List.findIdx isStoreEvent (copyTMAKernelTrace txBytes) ∧
    (copyTMAKernelTrace txBytes).countP isWaitEvent = 1 ∧
    List.findIdx isWaitEvent (copyTMAKernelTrace txBytes) <
      List.findIdx isStoreEvent (copyTMAKernelTrace txBytes) := by
  have ha : (2 : Nat) < 7 := by decide
  have hb : (5 : Nat) < 7 := by decide
  exact ⟨rfl, rfl, rfl, ha, rfl, hb⟩

/-- C6 counterexample: invoking the host entry point with R = 0 and C = 5
does not fail with any ConfigurationError — the code performs no dimension
validation at all — and it still executes its launch loop: the status is 0,
one (empty-grid) launch is performed, and no diagnostic is produced. -/
theorem zero_dimension_accepted_counterexample :
    (copy_host_tma_load_and_store_kernel 128 128 0 5 1 syncOK).status = 0 ∧
    (copy_host_tma_load_and_store_kernel 128 128 0 5 1 syncOK).launches = 1 ∧
    (copy_host_tma_load_and_store_kernel 128 128 0 5 1 syncOK).diag
      = none := by
  decide

/-- C6 amended: the host entry point performs no validation of its
dimensions: for every shape, including non-positive (zero) dimensions such
as R = 0, C = 5, it runs its launch loop (one launch per iteration) and,
when every synchronization succeeds, returns status 0 with no diagnostic;
no ConfigurationError is ever raised. -/
theorem host_no_dimension_validation (tm tn M N iterations : Nat) :
    (copy_host_tma_load_and_store_kernel tm tn M N iterations syncOK).status
      = 0 ∧
    (copy_host_tma_load_and_store_kernel tm tn M N iterations
      syncOK).launches = iterations ∧
    (copy_host_tma_load_and_store_kernel tm tn M N iterations syncOK).diag
      = none := by
  have h := runIterations_ok M N tm tn (srcInit N) syncOK iterations 0
    (fun _ _ => 0) (fun t _ _ => rfl)
  have hh := host_of_fault_none tm tn M N iterations syncOK h.1
  exact ⟨hh.1, by rw [hh.2.2.1, h.2], hh.2.1⟩

/-- C7: for every iterations ≥ 1, running the same copy plan for that many
iterations yields the same final destination buffer (at every coordinate) as
running it exactly once: each iteration re-derives every written value from
the unmodified source buffer alone. -/
theorem iterations_idempotent (tm tn M N iterations : Nat)
    (htm : 1 ≤ tm) (htn : 1 ≤ tn) (hit : 1 ≤ iterations) :
    (copy_host_tma_load_and_store_kernel tm tn M N iterations syncOK).finalD
      = (copy_host_tma_load_and_store_kernel tm tn M N 1 syncOK).finalD := by
  rw [host_finalD, host_finalD]
  rw [runIterations_idem M N tm tn (srcInit N) htm htn iterations hit 0 _,
      runIterations_idem M N tm tn (srcInit N) htm htn 1 (by omega) 0 _]

/-- Witness for C7: two iterations give the same destination as one, and at
the concrete shape the common value is the source value. -/
theorem iterations_idempotent_witness :
    (copy_host_tma_load_and_store_kernel 2 2 3 2 4 syncOK).finalD
      = (copy_host_tma_load_and_store_kernel 2 2 3 2 1 syncOK).finalD :=
  iterations_idempotent 2 2 3 2 4 (by decide) (by decide) (by decide)

/-- C8: every execution unit writes the destination only inside its own
tile sub-region, every value it writes is read from the source view, and for
every pair of distinct tile coordinates the destination byte ranges written
by the two units are disjoint. -/
theorem unit_frame_and_disjointness (R C tr tc : Nat) :
    (∀ (S D : Nat → Nat → Nat) (blk : Nat × Nat) (i j : Nat),
        inTile R C tr tc blk i j →
        copyTMAKernel R C tr tc S blk D i j = S i j) ∧
    (∀ (S D : Nat → Nat → Nat) (blk : Nat × Nat) (i j : Nat),
        ¬ inTile R C tr tc blk i j →
        copyTMAKernel R C tr tc S blk D i j = D i j) ∧
    (∀ blk blk' : Nat × Nat, blk ≠ blk' →
        Disjoint (destByteOffsets R C tr tc blk)
          (destByteOffsets R C tr tc blk')) := by
  refine ⟨fun S D blk i j h => copyTMAKernel_inTile R C tr tc S D blk i j h,
          fun S D blk i j h => copyTMAKernel_notInTile R C tr tc S D blk i j h,
          ?_⟩
  intro blk blk' hne
  rw [Set.disjoint_left]
  rintro o ⟨i, j, hin, hlo, hhi⟩ ⟨i', j', hin', hlo', hhi'⟩
  have hjC : j < C := hin.2.2.2.2.2
  have hjC' : j' < C := hin'.2.2.2.2.2
  simp only [elemBytes] at hlo hhi hlo' hhi'
  have hlin : i * C + j = i' * C + j' := by omega
  have hC : 0 < C := by omega
  have h1 : (i * C + j) / C = i := by
    rw [Nat.mul_comm i C, Nat.mul_add_div hC, Nat.div_eq_of_lt hjC,
        Nat.add_zero]
  have h2 : (i' * C + j') / C = i' := by
    rw [Nat.mul_comm i' C, Nat.mul_add_div hC, Nat.div_eq_of_lt hjC',
        Nat.add_zero]
  have hii : i = i' := by rw [← h1, ← h2, hlin]
  have hjj : j = j' := by
    rw [hii] at hlin
    omega
  apply hne
  rw [inTile_unique R C tr tc blk i j hin,
      inTile_unique R C tr tc blk' i' j' hin', hii, hjj]

/-- Witness for C8: the unit of tile (0, 1) of a 2-by-2 grid of 1-by-1 tiles
writes the source value at its own cell, leaves a cell of another tile
untouched, and its byte range is disjoint from tile (0, 0)'s. -/
theorem unit_frame_and_disjointness_witness :
    copyTMAKernel 2 2 1 1 (fun i j => 10 * i + j) (0, 1) (fun _ _ => 99) 0 1
      = 1 ∧
    copyTMAKernel 2 2 1 1 (fun i j => 10 * i + j) (0, 1) (fun _ _ => 99) 1 1
      = 99 ∧
    Disjoint (destByteOffsets 2 2 1 1 (0, 0)) (destByteOffsets 2 2 1 1 (0, 1))
    :=
  ⟨(unit_frame_and_disjointness 2 2 1 1).1 _ _ (0, 1) 0 1 (by decide),
   (unit_frame_and_disjointness 2 2 1 1).2.1 _ _ (0, 1) 1 1 (by decide),
   (unit_frame_and_disjointness 2 2 1 1).2.2 (0, 0) (0, 1) (by decide)⟩

/-- C9: the host entry point returns status 0 (and writes no diagnostic)
when every device synchronization succeeds, and returns the distinct
non-zero status -1 accompanied by the human-readable diagnostic
`CUDA Runtime error: <message>` when the device reports a runtime fault at
any synchronization point — the first failing `cudaDeviceSynchronize`, at
any iteration `f` of the loop. -/
theorem status_contract (tm tn M N iterations : Nat)
    (sync : Nat → Option String) :
    ((∀ t, t < iterations → sync t = none) →
      (copy_host_tma_load_and_store_kernel tm tn M N iterations sync).status
        = 0 ∧
      (copy_host_tma_load_and_store_kernel tm tn M N iterations sync).diag
        = none) ∧
    (∀ (f : Nat) (msg : String), f < iterations →
      (∀ t, t < f → sync t = none) → sync f = some msg →
      (copy_host_tma_load_and_store_kernel tm tn M N iterations sync).status
        = -1 ∧
      (copy_host_tma_load_and_store_kernel tm tn M N iterations sync).status
        ≠ 0 ∧
      (copy_host_tma_load_and_store_kernel tm tn M N iterations sync).diag
        = some ("CUDA Runtime error: " ++ msg)) := by
  constructor
  · intro hall
    have h := runIterations_ok M N tm tn (srcInit N) sync iterations 0
      (fun _ _ => 0) (fun t _ ht => hall t (by omega))
    have hh := host_of_fault_none tm tn M N iterations sync h.1
    exact ⟨hh.1, hh.2.1⟩
  · intro f msg hf hpre hsf
    have hfault : (runIterations M N tm tn (srcInit N) sync iterations 0
        (fun _ _ => 0)).fault = some msg :=
      runIterations_fault_at M N tm tn (srcInit N) sync msg f iterations 0
        (fun _ _ => 0) hf (fun t _ ht2 => hpre t (by omega))
        (by rw [Nat.zero_add]; exact hsf)
    have hh := host_of_fault_some tm tn M N iterations sync msg hfault
    refine ⟨hh.1, ?_, hh.2⟩
    rw [hh.1]
    decide

/-- Witness for C9: with an always-succeeding device the status is 0; with a
device that succeeds at iteration 0 and faults at the synchronization point
of iteration 1 of a 3-iteration run, the status is -1 and the diagnostic
carries the error string. -/
theorem status_contract_witness :
    (copy_host_tma_load_and_store_kernel 2 2 3 2 1 syncOK).status = 0 ∧
    (copy_host_tma_load_and_store_kernel 2 2 3 2 3 syncFaultLater).status
      = -1 ∧
    (copy_host_tma_load_and_store_kernel 2 2 3 2 3 syncFaultLater).diag
      = some ("CUDA Runtime error: " ++ "misaligned address") :=
  ⟨((status_contract 2 2 3 2 1 syncOK).1 (fun t _ => rfl)).1,
   ((status_contract 2 2 3 2 3 syncFaultLater).2 1 "misaligned address"
     (by decide)
     (fun t ht => by
       have h0 : t = 0 := by omega
       rw [h0]
       rfl)
     rfl).1,
   ((status_contract 2 2 3 2 3 syncFaultLater).2 1 "misaligned address"
     (by decide)
     (fun t ht => by
       have h0 : t = 0 := by omega
       rw [h0]
       rfl)
     rfl).2.2⟩

/-- C10: whenever every `cudaDeviceSynchronize` call succeeds the host entry
point returns 0, regardless of how many element mismatches its verification
pass counts (the mismatch count is stored in `bad` and only printed, never
reflected in the status code); in particular, with iterations = 0 no kernel
is launched, the destination keeps its initial all-zero contents, and the
function still returns 0. -/
theorem status_ignores_verification (tm tn M N iterations : Nat)
    (sync : Nat → Option String) :
    ((∀ t, t < iterations → sync t = none) →
      (copy_host_tma_load_and_store_kernel tm tn M N iterations sync).status
        = 0) ∧
    ((copy_host_tma_load_and_store_kernel tm tn M N 0 sync).launches = 0 ∧
     (copy_host_tma_load_and_store_kernel tm tn M N 0 sync).finalD
       = (fun _ _ => 0) ∧
     (copy_host_tma_load_and_store_kernel tm tn M N 0 sync).status = 0) := by
  constructor
  · intro hall
    have h := runIterations_ok M N tm tn (srcInit N) sync iterations 0
      (fun _ _ => 0) (fun t _ ht => hall t (by omega))
    exact (host_of_fault_none tm tn M N iterations sync h.1).1
  · have h0 : (runIterations M N tm tn (srcInit N) sync 0 0
        (fun _ _ => 0)).fault = none := rfl
    have hh := host_of_fault_none tm tn M N 0 sync h0
    exact ⟨hh.2.2.1, host_finalD tm tn M N 0 sync, hh.1⟩

/-- Witness for C10: with M = 1, N = 5 and iterations = 0 the verification
pass counts 4 mismatches (only index 0 matches the all-zero destination),
yet the status is 0 and no launch was performed. -/
theorem status_ignores_verification_witness :
    (copy_host_tma_load_and_store_kernel 128 128 1 5 0 syncOK).status = 0 ∧
    (copy_host_tma_load_and_store_kernel 128 128 1 5 0 syncOK).bad = 4 ∧
    (copy_host_tma_load_and_store_kernel 128 128 1 5 0 syncOK).good = 1 ∧
    (copy_host_tma_load_and_store_kernel 128 128 1 5 0 syncOK).launches = 0
    :=
  ⟨(status_ignores_verification 128 128 1 5 0 syncOK).2.2.2,
   by decide, by decide,
   (status_ignores_verification 128 128 1 5 0 syncOK).2.1⟩

end TmaCopy
